import Mathlib

/-!
Shallow embedding of the state-transition logic of the repository:

* the `useAddTodo` optimistic-mutation hook (onMutate / onSuccess / onError
  over the query-cache entry for `CACHE_KEY_TODOS`),
* `tasksReducer` from `src/state-management/reducers/tasksReducer.ts`,
* `counterReducer` from the study notes.

JavaScript object identity matters for `useAddTodo.onSuccess`, which compares
todos with `===` (reference equality on objects). A `Todo` therefore carries a
`ref` field modelling its heap reference, besides the value fields `id`,
`title`, `completed`.
-/

/-- A todo record as posted to the server. `ref` models JavaScript object
identity (the heap reference); `id`, `title`, `completed` are the record's
value fields. -/
structure Todo where
  ref : Nat
  id : Int
  title : String
  completed : Bool

deriving instance DecidableEq for Todo

/-- JavaScript `===` applied to todo objects: reference identity. -/
def jsEq (a b : Todo) : Prop := a.ref = b.ref

instance (a b : Todo) : Decidable (jsEq a b) :=
  inferInstanceAs (Decidable (a.ref = b.ref))

/-- Deep (value-level) equality of todo records, ignoring heap identity. -/
def valueEq (a b : Todo) : Prop :=
  a.id = b.id ∧ a.title = b.title ∧ a.completed = b.completed

instance (a b : Todo) : Decidable (valueEq a b) :=
  inferInstanceAs (Decidable (a.id = b.id ∧ a.title = b.title ∧ a.completed = b.completed))

/-- The query-cache entry for `CACHE_KEY_TODOS`. `none` models a key that has
never been set (no prior fetch). -/
abbrev Cache := Option (List Todo)

/-- The context object returned by `onMutate` and consumed by `onError`. -/
structure AddTodoContext where
  previousTodos : List Todo

deriving instance DecidableEq for AddTodoContext

/-- `queryClient.getQueryData<Todo[]>(CACHE_KEY_TODOS) || []` as it appears in
`useAddTodo.onMutate`: an absent entry reads as the empty list. -/
def getQueryDataOrEmpty (g : Cache) : List Todo := g.getD []

/-- `useAddTodo.onMutate`: snapshot the current entry (defaulting to `[]`),
then set the entry with the updater `(todos = []) => [newTodo, ...todos]`
(the default parameter covers an absent entry), and return the context
carrying the snapshot. The result is the new cache state paired with the
context. -/
def onMutate (g : Cache) (newTodo : Todo) : Cache × AddTodoContext :=
  let previousTodos := getQueryDataOrEmpty g
  (some (newTodo :: g.getD []), { previousTodos := previousTodos })

/-- `useAddTodo.onSuccess`: set the entry with the updater
`todos => todos?.map(todo => (todo === newTodo ? savedTodo : todo))`.
When the entry is absent the optional chaining yields `undefined` and the
entry is left unset; `===` is reference equality, modelled by `jsEq`. -/
def onSuccess (g : Cache) (savedTodo newTodo : Todo) : Cache :=
  g.map (fun todos => todos.map (fun todo => if jsEq todo newTodo then savedTodo else todo))

/-- `useAddTodo.onError`: when no context exists, return without writing;
otherwise restore the snapshot wholesale as the new entry. -/
def onError (g : Cache) (context : Option AddTodoContext) : Cache :=
  match context with
  | none => g
  | some ctx => some ctx.previousTodos

/-- The outcome of the remote write for one submission. -/
inductive Resolution where
  | success (savedTodo : Todo)
  | failure

/-- Apply a submission's resolution callback to a cache state, given the
submitted todo and the context produced at mutate time. -/
def resolve (g : Cache) (newTodo : Todo) (ctx : AddTodoContext) : Resolution → Cache
  | .success savedTodo => onSuccess g savedTodo newTodo
  | .failure => onError g (some ctx)

/-- One full submission in isolation: the optimistic insert runs synchronously
at submit time, and the resolution callback later runs against the cache state
the insert produced. -/
def submitRun (g : Cache) (newTodo : Todo) (r : Resolution) : Cache :=
  let m := onMutate g newTodo
  resolve m.1 newTodo m.2 r

/-- `setQueryData` with an updater that may throw: a throwing updater
propagates the exception and the entry is left unchanged (the new value is
never produced). -/
def setQueryDataE (g : Cache) (f : List Todo → Except String (List Todo)) :
    Cache × Except String Unit :=
  match f (g.getD []) with
  | .error e => (g, .error e)
  | .ok l => (some l, .ok ())

/-- `onMutate` with the computation of the optimistic update made fallible
(e.g. a malformed item): mirrors `useAddTodo.onMutate` with the updater body
abstracted by `compute`. On a throw, the error propagates synchronously and no
context object is produced. -/
def onMutateE (g : Cache) (compute : List Todo → Except String (List Todo)) :
    Cache × Except String AddTodoContext :=
  match setQueryDataE g compute with
  | (g1, .ok _) => (g1, .ok { previousTodos := getQueryDataOrEmpty g })
  | (g1, .error e) => (g1, .error e)

namespace TaskMgmt

/-- A task record from `tasksReducer.ts`. -/
structure Task where
  id : Int
  title : String

deriving instance DecidableEq for Task

/-- `TaskAction`: `ADD` carries a task, `DELETE` carries a `taskId`. -/
inductive TaskAction where
  | add (task : Task)
  | delete (taskId : Int)

/-- `tasksReducer`: `ADD` prepends `action.task`; `DELETE` keeps exactly the
tasks whose `id` differs from `action.taskId` (JavaScript `!==` on numbers).
The function is pure: it builds a new array and never mutates its input. -/
def tasksReducer (tasks : List Task) (action : TaskAction) : List Task :=
  match action with
  | .add task => task :: tasks
  | .delete taskId => tasks.filter (fun task => task.id != taskId)

end TaskMgmt

/-- The action type of `counterReducer`. -/
inductive CounterAction where
  | increment
  | decrement
  | reset

/-- `counterReducer`: `INCREMENT` adds one, `DECREMENT` subtracts one, `RESET`
returns 0 regardless of the current state. -/
def counterReducer (state : Int) (action : CounterAction) : Int :=
  match action with
  | .increment => state + 1
  | .decrement => state - 1
  | .reset => 0

/-- The `onSuccess` updater leaves a list unchanged when no element of it is
the submitted object (no element shares its heap reference). -/
theorem map_replace_of_not_ref_mem (l : List Todo) (x s : Todo)
    (h : ∀ t ∈ l, t.ref ≠ x.ref) :
    l.map (fun todo => if jsEq todo x then s else todo) = l := by
  induction l with
  | nil => rfl
  | cons a t ih =>
    rw [List.map_cons, if_neg (show ¬ jsEq a x from h a (List.mem_cons_self a t)),
      ih (fun u hu => h u (List.mem_cons_of_mem a hu))]

/-- Unfolding of `onSuccess` on a present entry. -/
theorem onSuccess_some (l : List Todo) (s x : Todo) :
    onSuccess (some l) s x
      = some (l.map (fun todo => if jsEq todo x then s else todo)) := rfl

/-- `onSuccess` on an entry headed by the submitted object replaces exactly
that head when no other element shares its reference. -/
theorem onSuccess_cons (l : List Todo) (x s : Todo)
    (h : ∀ t ∈ l, t.ref ≠ x.ref) :
    onSuccess (some (x :: l)) s x = some (s :: l) := by
  rw [onSuccess_some, List.map_cons, if_pos (show jsEq x x from rfl),
    map_replace_of_not_ref_mem l x s h]

/-- Claim C1: after a failed submission, the rollback in `onError` restores
exactly the snapshot `previousTodos` captured in `onMutate` immediately before
the optimistic insert (list equality, i.e. deep equality); in particular a
failed submit starting from the empty entry leaves the entry empty. -/
theorem c1_rollback_restores_snapshot (g : Cache) (newTodo : Todo) :
    submitRun g newTodo .failure = some ((onMutate g newTodo).2.previousTodos) ∧
    (onMutate g newTodo).2.previousTodos = getQueryDataOrEmpty g ∧
    submitRun (some []) newTodo .failure = some [] :=
  ⟨rfl, rfl, rfl⟩

/-- Claim C4: the optimistic update of `onMutate` prepends the submitted todo
to the previous entry, and it is applied at submit time: every resolution
callback runs against the cache state the synchronous insert already
produced (the asynchronous outcome is only applied afterwards). -/
theorem c4_optimistic_prepend_before_resolution (g : Cache) (newTodo : Todo) :
    (onMutate g newTodo).1 = some (newTodo :: getQueryDataOrEmpty g) ∧
    (∀ r : Resolution,
      submitRun g newTodo r
        = resolve (some (newTodo :: getQueryDataOrEmpty g)) newTodo (onMutate g newTodo).2 r) :=
  ⟨rfl, fun _ => rfl⟩

/-- Claim C5: submitting while the cache entry is absent does not fail: the
optimistic insert initializes the entry to the one-element list holding the
submitted todo, and the snapshot captured for rollback is the empty list. -/
theorem c5_absent_entry_initialized (newTodo : Todo) :
    (onMutate none newTodo).1 = some [newTodo] ∧
    (onMutate none newTodo).2.previousTodos = [] :=
  ⟨rfl, rfl⟩

/-- Claim C2: a successful submission leaves the entry equal to the
server-returned todo followed by the previous entry; the result contains the
server todo by value and no value-copy of the placeholder. Hypotheses: the
submitted placeholder is a fresh object (its reference occurs nowhere in the
prior entry), the server version differs from it in value, and the prior
entry holds no value-copy of it. -/
theorem c2_success_replaces_placeholder (g : Cache) (newTodo savedTodo : Todo)
    (hfresh : ∀ x ∈ getQueryDataOrEmpty g, x.ref ≠ newTodo.ref)
    (hval : ¬ valueEq savedTodo newTodo)
    (hprev : ∀ x ∈ getQueryDataOrEmpty g, ¬ valueEq x newTodo) :
    submitRun g newTodo (.success savedTodo) = some (savedTodo :: getQueryDataOrEmpty g) ∧
    (∃ x ∈ getQueryDataOrEmpty (submitRun g newTodo (.success savedTodo)), valueEq x savedTodo) ∧
    (∀ x ∈ getQueryDataOrEmpty (submitRun g newTodo (.success savedTodo)), ¬ valueEq x newTodo) := by
  have h1 : submitRun g newTodo (.success savedTodo)
      = some (savedTodo :: getQueryDataOrEmpty g) := by
    show onSuccess (some (newTodo :: getQueryDataOrEmpty g)) savedTodo newTodo
      = some (savedTodo :: getQueryDataOrEmpty g)
    exact onSuccess_cons (getQueryDataOrEmpty g) newTodo savedTodo hfresh
  refine ⟨h1, ?_, ?_⟩
  · refine ⟨savedTodo, ?_, ⟨rfl, rfl, rfl⟩⟩
    rw [h1]
    exact List.mem_cons_self _ _
  · intro x hx
    rw [h1] at hx
    rcases List.mem_cons.mp hx with hx | hx
    · rw [hx]; exact hval
    · exact hprev x hx

/-- Claim C2 witness: the spec scenario. The cache starts as the empty entry,
the placeholder has id 0, the server returns id 42; the final entry is the
one-element list holding the server version, which contains no value-copy of
the placeholder. -/
theorem c2_success_replaces_placeholder_witness :
    submitRun (some []) ⟨1, 0, "buy milk", false⟩ (.success ⟨2, 42, "buy milk", false⟩)
      = some [⟨2, 42, "buy milk", false⟩] ∧
    (∃ x ∈ getQueryDataOrEmpty
        (submitRun (some []) ⟨1, 0, "buy milk", false⟩ (.success ⟨2, 42, "buy milk", false⟩)),
      valueEq x ⟨2, 42, "buy milk", false⟩) ∧
    (∀ x ∈ getQueryDataOrEmpty
        (submitRun (some []) ⟨1, 0, "buy milk", false⟩ (.success ⟨2, 42, "buy milk", false⟩)),
      ¬ valueEq x ⟨1, 0, "buy milk", false⟩) :=
  c2_success_replaces_placeholder (some []) ⟨1, 0, "buy milk", false⟩ ⟨2, 42, "buy milk", false⟩
    (by intro x hx; cases hx) (by decide) (by intro x hx; cases hx)

/-- Claim C3 counterexample: submissions A then B, with A resolving after B.
B resolves first with success and its item is reconciled to the server
version; A then resolves with failure, and its rollback restores A's pre-B
snapshot (the empty list), discarding B's reconciled entry entirely — so a
rollback does disturb the other submission's entry, refuting the claim as
stated. Concretely: after B's success the entry holds B's server version;
after A's rollback the entry is empty and holds no value-copy of it. -/
theorem c3_interleaved_isolation_counterexample :
    onSuccess (onMutate (onMutate (some [] : Cache) ⟨1, 0, "A", false⟩).1 ⟨2, 0, "B", false⟩).1
        ⟨4, 42, "B", false⟩ ⟨2, 0, "B", false⟩
      = some [⟨4, 42, "B", false⟩, ⟨1, 0, "A", false⟩] ∧
    onError
        (onSuccess (onMutate (onMutate (some [] : Cache) ⟨1, 0, "A", false⟩).1 ⟨2, 0, "B", false⟩).1
          ⟨4, 42, "B", false⟩ ⟨2, 0, "B", false⟩)
        (some (onMutate (some [] : Cache) ⟨1, 0, "A", false⟩).2)
      = some [] ∧
    ¬ (∃ x ∈ getQueryDataOrEmpty
        (onError
          (onSuccess (onMutate (onMutate (some [] : Cache) ⟨1, 0, "A", false⟩).1 ⟨2, 0, "B", false⟩).1
            ⟨4, 42, "B", false⟩ ⟨2, 0, "B", false⟩)
          (some (onMutate (some [] : Cache) ⟨1, 0, "A", false⟩).2)),
        valueEq x ⟨4, 42, "B", false⟩) := by
  decide

/-- Claim C3, amended: for submissions A then B where A resolves after B,
isolation holds in the orderings that do not combine an early success with a
late failure: if B fails, its rollback restores the snapshot still holding
A's optimistic entry (removing only B's item), and A's later success or
failure then touches only A's item; if both succeed, each reconciliation
replaces only its own item. (When B succeeds and A then fails, A's rollback
restores its pre-B snapshot and discards B's reconciled entry — see the
counterexample.) Hypotheses: A and B are fresh distinct objects and B's
server version is a different object from A. -/
theorem c3_interleaved_isolation_amended (g : Cache) (A B savedA savedB : Todo)
    (hA : ∀ x ∈ getQueryDataOrEmpty g, x.ref ≠ A.ref)
    (hB : ∀ x ∈ getQueryDataOrEmpty g, x.ref ≠ B.ref)
    (hAB : A.ref ≠ B.ref)
    (hsB : savedB.ref ≠ A.ref) :
    (onSuccess
        (onError (onMutate (onMutate g A).1 B).1 (some (onMutate (onMutate g A).1 B).2))
        savedA A
      = some (savedA :: getQueryDataOrEmpty g)) ∧
    (onError
        (onError (onMutate (onMutate g A).1 B).1 (some (onMutate (onMutate g A).1 B).2))
        (some (onMutate g A).2)
      = some (getQueryDataOrEmpty g)) ∧
    (onSuccess (onSuccess (onMutate (onMutate g A).1 B).1 savedB B) savedA A
      = some (savedB :: savedA :: getQueryDataOrEmpty g)) := by
  refine ⟨?_, rfl, ?_⟩
  · show onSuccess (some (A :: getQueryDataOrEmpty g)) savedA A
      = some (savedA :: getQueryDataOrEmpty g)
    exact onSuccess_cons (getQueryDataOrEmpty g) A savedA hA
  · have hstep : onSuccess (onMutate (onMutate g A).1 B).1 savedB B
        = some (savedB :: A :: getQueryDataOrEmpty g) := by
      show onSuccess (some (B :: A :: getQueryDataOrEmpty g)) savedB B
        = some (savedB :: A :: getQueryDataOrEmpty g)
      exact onSuccess_cons (A :: getQueryDataOrEmpty g) B savedB
        (fun t ht => by
          rcases List.mem_cons.mp ht with h | h
          · rw [h]; exact hAB
          · exact hB t h)
    rw [hstep, onSuccess_some, List.map_cons,
      if_neg (show ¬ jsEq savedB A from hsB), List.map_cons,
      if_pos (show jsEq A A from rfl),
      map_replace_of_not_ref_mem (getQueryDataOrEmpty g) A savedA hA]

/-- Claim C3 amended witness: concrete run with A = (id 0, ref 1),
B = (id 0, ref 2), server versions with ids 100 and 42, starting from the
empty entry. -/
theorem c3_interleaved_isolation_amended_witness :
    (onSuccess
        (onError (onMutate (onMutate (some [] : Cache) ⟨1, 0, "A", false⟩).1 ⟨2, 0, "B", false⟩).1
          (some (onMutate (onMutate (some [] : Cache) ⟨1, 0, "A", false⟩).1 ⟨2, 0, "B", false⟩).2))
        ⟨3, 100, "A", false⟩ ⟨1, 0, "A", false⟩
      = some [⟨3, 100, "A", false⟩]) ∧
    (onError
        (onError (onMutate (onMutate (some [] : Cache) ⟨1, 0, "A", false⟩).1 ⟨2, 0, "B", false⟩).1
          (some (onMutate (onMutate (some [] : Cache) ⟨1, 0, "A", false⟩).1 ⟨2, 0, "B", false⟩).2))
        (some (onMutate (some [] : Cache) ⟨1, 0, "A", false⟩).2)
      = some []) ∧
    (onSuccess
        (onSuccess (onMutate (onMutate (some [] : Cache) ⟨1, 0, "A", false⟩).1 ⟨2, 0, "B", false⟩).1
          ⟨4, 42, "B", false⟩ ⟨2, 0, "B", false⟩)
        ⟨3, 100, "A", false⟩ ⟨1, 0, "A", false⟩
      = some [⟨4, 42, "B", false⟩, ⟨3, 100, "A", false⟩]) :=
  c3_interleaved_isolation_amended (some []) ⟨1, 0, "A", false⟩ ⟨2, 0, "B", false⟩
    ⟨3, 100, "A", false⟩ ⟨4, 42, "B", false⟩
    (by intro x hx; cases hx) (by intro x hx; cases hx) (by decide) (by decide)

/-- Claim C6: reconciliation replaces only the specific submitted object,
located by reference identity, leaving every other item unchanged — including
a distinct item that carries the same (placeholder) id value. Hypotheses: the
entry is the submitted todo surrounded by items none of which share its
reference, among them an item sharing its id. -/
theorem c6_reconcile_by_object_identity (l1 l2 : List Todo) (newTodo other savedTodo : Todo)
    (_hmem : other ∈ l1 ++ l2) (_hid : other.id = newTodo.id)
    (hrefs : ∀ t ∈ l1 ++ l2, t.ref ≠ newTodo.ref) :
    onSuccess (some (l1 ++ newTodo :: l2)) savedTodo newTodo
      = some (l1 ++ savedTodo :: l2) := by
  rw [onSuccess_some, List.map_append, List.map_cons,
    if_pos (show jsEq newTodo newTodo from rfl),
    map_replace_of_not_ref_mem l1 newTodo savedTodo
      (fun t ht => hrefs t (List.mem_append_left l2 ht)),
    map_replace_of_not_ref_mem l2 newTodo savedTodo
      (fun t ht => hrefs t (List.mem_append_right l1 ht))]

/-- Claim C6 witness: the entry holds the submitted todo (id 0, ref 1) and a
distinct item with the same id 0 but ref 9; reconciliation with the server
version (id 42) replaces only the submitted object and leaves the other item
untouched. -/
theorem c6_reconcile_by_object_identity_witness :
    onSuccess (some ([] ++ ⟨1, 0, "buy milk", false⟩ :: [⟨9, 0, "copy", false⟩]))
        ⟨2, 42, "buy milk", false⟩ ⟨1, 0, "buy milk", false⟩
      = some ([] ++ ⟨2, 42, "buy milk", false⟩ :: [⟨9, 0, "copy", false⟩]) :=
  c6_reconcile_by_object_identity [] [⟨9, 0, "copy", false⟩]
    ⟨1, 0, "buy milk", false⟩ ⟨9, 0, "copy", false⟩ ⟨2, 42, "buy milk", false⟩
    (by decide) (by decide) (by decide)

/-- Claim C7: when computing the optimistic update itself throws, the error
propagates synchronously to the caller, the cache entry is left unchanged (no
optimistic mutation is applied), no context is produced, and `onError`
invoked without a context returns without writing to the cache. -/
theorem c7_throwing_update_leaves_cache (g : Cache) (e : String)
    (compute : List Todo → Except String (List Todo))
    (h : compute (getQueryDataOrEmpty g) = .error e) :
    (onMutateE g compute).1 = g ∧
    (onMutateE g compute).2 = .error e ∧
    onError (onMutateE g compute).1 none = (onMutateE g compute).1 := by
  have h' : compute (g.getD []) = Except.error e := h
  unfold onMutateE setQueryDataE
  rw [h']
  exact ⟨rfl, rfl, rfl⟩

/-- Claim C7 witness: a computation that throws on a malformed item leaves
the one-element entry untouched, surfaces the error, and the no-context
rollback writes nothing. -/
theorem c7_throwing_update_leaves_cache_witness :
    (onMutateE (some [⟨1, 0, "a", false⟩]) (fun _ => Except.error "malformed item")).1
      = some [⟨1, 0, "a", false⟩] ∧
    (onMutateE (some [⟨1, 0, "a", false⟩]) (fun _ => Except.error "malformed item")).2
      = .error "malformed item" ∧
    onError (onMutateE (some [⟨1, 0, "a", false⟩]) (fun _ => Except.error "malformed item")).1 none
      = (onMutateE (some [⟨1, 0, "a", false⟩]) (fun _ => Except.error "malformed item")).1 :=
  c7_throwing_update_leaves_cache (some [⟨1, 0, "a", false⟩]) "malformed item"
    (fun _ => Except.error "malformed item") rfl

/-- Claim C8: DELETE returns exactly the subsequence of tasks whose id differs
from the deleted id, preserving relative order (a sublist of the input), and
removes every task carrying that id, duplicates included; the embedding is
pure, so the input list is unchanged. -/
theorem c8_delete_removes_all_matching (tasks : List TaskMgmt.Task) (taskId : Int) :
    (TaskMgmt.tasksReducer tasks (.delete taskId)).Sublist tasks ∧
    (∀ t : TaskMgmt.Task,
      t ∈ TaskMgmt.tasksReducer tasks (.delete taskId) ↔ (t ∈ tasks ∧ t.id ≠ taskId)) := by
  constructor
  · exact List.filter_sublist tasks
  · intro t
    simp [TaskMgmt.tasksReducer, List.mem_filter]

/-- Claim C9: DELETE is idempotent: filtering out a task id twice yields the
same list as filtering it out once. -/
theorem c9_delete_idempotent (tasks : List TaskMgmt.Task) (taskId : Int) :
    TaskMgmt.tasksReducer (TaskMgmt.tasksReducer tasks (.delete taskId)) (.delete taskId)
      = TaskMgmt.tasksReducer tasks (.delete taskId) := by
  show List.filter _ (List.filter _ tasks) = List.filter _ tasks
  rw [List.filter_eq_self]
  intro a ha
  exact (List.mem_filter.mp ha).2

/-- Claim C10: RESET yields 0 from every state, hence every action sequence
ending in RESET folds to 0; and INCREMENT followed by DECREMENT restores the
original state. -/
theorem c10_counter_reset_and_cancel :
    (∀ s : Int, counterReducer s .reset = 0) ∧
    (∀ (s : Int) (acts : List CounterAction),
      List.foldl counterReducer s (acts ++ [CounterAction.reset]) = 0) ∧
    (∀ s : Int, counterReducer (counterReducer s .increment) .decrement = s) := by
  refine ⟨fun s => rfl, fun s acts => ?_, fun s => ?_⟩
  · rw [List.foldl_append]
    rfl
  · show s + 1 - 1 = s
    omega
